import Mathlib

/-
Verification development for the LiteX-CNC etherbone driver core
(src/litexcnc/driver/litexcnc_eth.c and litexcnc_eth.h).

The driver is shallowly embedded: pure address computations become Nat
functions, byte buffers become functions from byte offset to byte value
(updated by explicit write operations mirroring memcpy and cell
assignment), and the transport primitives declared in etherbone.h
(eb_connect, eb_disconnect, eb_send, eb_recv, eb_read8, eb_write8,
eb_wait_for_tx_buffer_empty) are modelled from the spec as oracle
parameters and emitted I/O events, since etherbone.c is not part of the
sources under review.  Machine arithmetic is Nat with explicit modular
reduction where the C code truncates (uint8_t stores, uint32_t words,
size_t subtraction).
-/

/-- MAX_RESET_RETRIES from litexcnc_eth.h line 24. -/
def MAX_RESET_RETRIES : Nat := 5

/-- The sizes entering the address-layout macros of litexcnc_eth.h
(lines 48 to 52).  The first three are build-time constants of
litexcnc.h; the last two are per-board values of the fpga struct. -/
structure RegionSizes where
  header_data_read_size : Nat
  reset_header_size : Nat
  config_header_size : Nat
  write_buffer_size : Nat
  write_header_size : Nat

/-- LITEXCNC_ETH_INIT_DATA_BASE_ADDRESS: 0x0. -/
def initBaseAddr (_s : RegionSizes) : Nat := 0

/-- LITEXCNC_ETH_RESET_DATA_BASE_ADDRESS: init base + LITEXCNC_HEADER_DATA_READ_SIZE. -/
def resetBaseAddr (s : RegionSizes) : Nat :=
  initBaseAddr s + s.header_data_read_size

/-- LITEXCNC_ETH_CONFIG_DATA_BASE_ADDRESS: reset base + LITEXCNC_RESET_HEADER_SIZE. -/
def configBaseAddr (s : RegionSizes) : Nat :=
  resetBaseAddr s + s.reset_header_size

/-- LITEXCNC_ETH_WRITE_DATA_BASE_ADDRESS: config base + LITEXCNC_CONFIG_HEADER_SIZE. -/
def writeBaseAddr (s : RegionSizes) : Nat :=
  configBaseAddr s + s.config_header_size

/-- LITEXCNC_ETH_READ_DATA_BASE_ADDRESS: write base + write_buffer_size - write_header_size. -/
def readBaseAddr (s : RegionSizes) : Nat :=
  writeBaseAddr s + s.write_buffer_size - s.write_header_size

/-- Big-endian decoding of a 32-bit word from a byte list at a given
offset, as done by memcpy into a u32 field followed by be32toh. -/
def readWord32be (bs : List Nat) (off : Nat) : Nat :=
  bs.getD off 0 * 2 ^ 24 + bs.getD (off + 1) 0 * 2 ^ 16 +
    bs.getD (off + 2) 0 * 2 ^ 8 + bs.getD (off + 3) 0

/-- Big-endian encoding of a 32-bit word into four bytes, as done by
htobe32 followed by memcpy of the four bytes in memory order.  Values
of 2 ^ 32 or more are reduced modulo 2 ^ 32, exactly as the uint32_t
argument of htobe32 is. -/
def beBytes32 (x : Nat) : List Nat :=
  [x / 2 ^ 24 % 256, x / 2 ^ 16 % 256, x / 2 ^ 8 % 256, x % 256]

/-- C size_t subtraction (wrap-around at 2 ^ 64), used for the
expressions (buffer_size - 16) of init_board. -/
def size_t_sub (a b : Nat) : Nat :=
  (a + (2 ^ 64 - b % 2 ^ 64)) % 2 ^ 64

/-- Version and fingerprint fields of the fpga struct written by
litexcnc_eth_verify_config. -/
structure FpgaState where
  version : Nat
  fingerprint : Nat
deriving DecidableEq

/-- Modelled from the spec: litexcnc_header_data_read_t of litexcnc.h
(not under the reviewed sources) is three consecutive big-endian u32
words magic, version, fingerprint (spec section 6, Wire format).
litexcnc_eth_verify_config, litexcnc_eth.c lines 82 to 123: given the
result of the eb_read8 transport call and the bytes it produced,
fail when the read failed, fail with -1 when the first word is not
0x18052022, otherwise store the second and third words and succeed. -/
def litexcnc_eth_verify_config (readResult : Int) (bytes : List Nat)
    (st : FpgaState) : Int × FpgaState :=
  if readResult < 0 then (readResult, st)
  else if readWord32be bytes 0 ≠ 0x18052022 then (-1, st)
  else (0, ⟨readWord32be bytes 4, readWord32be bytes 8⟩)

/-- The two distinct error messages logged by litexcnc_eth_reset:
line 155 (set phase, Reset of the card failed after n times) and
line 188 (clear phase, FPGA did not respond after reset for n times). -/
inductive ResetErr where
  | setFailed : ResetErr
  | clearFailed : ResetErr
deriving DecidableEq

/-- One while loop of litexcnc_eth_reset (lines 152 to 180 and
185 to 213): while the read-back status differs from the flag, give up
with -1 once the attempt counter exceeds MAX_RESET_RETRIES, otherwise
write the flag, sleep, read the status back and retry.  The device
read-backs are an oracle dev indexed by a running read counter
(modelled from the spec: eb_write8 and eb_read8 are transport calls of
etherbone.c, which is not under the reviewed sources).  The fuel
argument is MAX_RESET_RETRIES + 1 - i for the loop counter i of the C
code; the result carries the return code, the next read index and the
last read-back status. -/
def resetLoop (dev : Nat → Nat) (flag : Nat) : Nat → Nat → Nat → Int × Nat × Nat
  | 0, idx, status =>
      if flag = status then (0, idx, status) else (-1, idx, status)
  | fuel + 1, idx, status =>
      if flag = status then (0, idx, status)
      else resetLoop dev flag fuel (idx + 1) (dev idx)

/-- Outcome of litexcnc_eth_reset: return code, number of read-back
attempts spent in each phase, and which of the two distinct error
messages (if any) was logged. -/
structure ResetResult where
  code : Int
  setReads : Nat
  clearReads : Nat
  log : List ResetErr
deriving DecidableEq

/-- litexcnc_eth_reset, litexcnc_eth.c lines 125 to 217: set phase
writes flag 0x01 starting from status 0x00 (so the loop runs at least
once), clear phase writes flag 0x00 starting from the status left by
the set phase; each phase has a fresh budget of MAX_RESET_RETRIES
attempts and each returns -1 on exhaustion.  Flag values are kept in
host order; the C code compares htobe32 images, which preserves
equality. -/
def litexcnc_eth_reset (dev : Nat → Nat) : ResetResult :=
  let s := resetLoop dev 1 MAX_RESET_RETRIES 0 0
  if s.1 < 0 then
    ⟨s.1, s.2.1, 0, [ResetErr.setFailed]⟩
  else
    let c := resetLoop dev 0 MAX_RESET_RETRIES s.2.1 s.2.2
    if c.1 < 0 then ⟨c.1, s.2.1, c.2.1 - s.2.1, [ResetErr.clearFailed]⟩
    else ⟨c.1, s.2.1, c.2.1 - s.2.1, []⟩

/-- A device whose reset-region read-back is unset (0) for the first k
reads and set (1) from read k + 1 onward. -/
def devSetAfter (k : Nat) : Nat → Nat :=
  fun n => if n < k then 0 else 1

/-- A device whose read-back is set (1) for the first 1 + k reads and
clear (0) afterwards: the set phase succeeds on its first read and the
clear phase then sees the flag still set for k reads. -/
def devClearAfter (k : Nat) : Nat → Nat :=
  fun n => if n < 1 + k then 1 else 0

/-- Events of the transport, modelled from the spec (section 6,
Transport contract): etherbone.c is not under the reviewed sources. -/
inductive EbEvent where
  | waitTxEmpty : EbEvent
  | send : Nat → EbEvent
  | recv : Nat → EbEvent
  | read8 : Nat → Nat → EbEvent
  | write8 : Nat → List Nat → EbEvent
deriving DecidableEq

/-- Outcome of one cyclic read: return code, transport events in
order, and the read-request buffer after the call. -/
structure ReadOutcome where
  code : Int
  trace : List EbEvent
  reqBufAfter : List Nat
deriving DecidableEq

/-- litexcnc_eth_read, litexcnc_eth.c lines 242 to 274: wait for the
tx buffer to drain, send the prebuilt read request
(read_buffer_size bytes), fail with -1 if the send failed, receive up
to read_buffer_size bytes, fail with -1 if the received count differs
from read_buffer_size, else succeed.  The send result and received
count are oracle inputs (modelled from the spec: eb_send and eb_recv
belong to etherbone.c, not under the reviewed sources).  The function
only reads the request buffer, so it is returned unchanged. -/
def litexcnc_eth_read (req : List Nat) (sendResult recvCount : Int)
    (read_buffer_size : Nat) : ReadOutcome :=
  if sendResult < 0 then
    ⟨-1, [EbEvent.waitTxEmpty, EbEvent.send read_buffer_size], req⟩
  else if recvCount ≠ (read_buffer_size : Int) then
    ⟨-1, [EbEvent.waitTxEmpty, EbEvent.send read_buffer_size,
          EbEvent.recv read_buffer_size], req⟩
  else
    ⟨0, [EbEvent.waitTxEmpty, EbEvent.send read_buffer_size,
         EbEvent.recv read_buffer_size], req⟩

/-- litexcnc_eth_write, litexcnc_eth.c lines 276 to 301: wait for the
tx buffer to drain, send the write buffer (write_buffer_size bytes),
return -1 on send failure and the send result r otherwise. -/
def litexcnc_eth_write (sendResult : Int) (write_buffer_size : Nat) :
    Int × List EbEvent :=
  if sendResult < 0 then
    (-1, [EbEvent.waitTxEmpty, EbEvent.send write_buffer_size])
  else
    (sendResult, [EbEvent.waitTxEmpty, EbEvent.send write_buffer_size])

/-- litexcnc_eth_write_config, litexcnc_eth.c lines 219 to 240: a
single eb_write8 of LITEXCNC_CONFIG_HEADER_SIZE bytes of data to the
config base address; the size argument is not used, the write result
is not checked, no read-back is performed, and 0 is returned
unconditionally (modelled from the spec: eb_write8 belongs to
etherbone.c, not under the reviewed sources; LITEXCNC_CONFIG_HEADER_SIZE
is a constant of litexcnc.h, kept as the parameter configHeaderSize). -/
def litexcnc_eth_write_config (configHeaderSize configBase : Nat)
    (data : List Nat) (size : Nat) : Int × List EbEvent :=
  (0, [EbEvent.write8 configBase (data.take configHeaderSize)])

/-- Number of send events in a trace. -/
def countSends : List EbEvent → Nat
  | [] => 0
  | EbEvent.send _ :: rest => countSends rest + 1
  | _ :: rest => countSends rest

/-- Number of recv events in a trace. -/
def countRecvs : List EbEvent → Nat
  | [] => 0
  | EbEvent.recv _ :: rest => countRecvs rest + 1
  | _ :: rest => countRecvs rest

/-- True when every send event in the trace is immediately preceded by
a waitTxEmpty event. -/
def sendsImmediatelyAfterWait : List EbEvent → Bool
  | [] => true
  | EbEvent.waitTxEmpty :: EbEvent.send _ :: rest => sendsImmediatelyAfterWait rest
  | EbEvent.send _ :: _ => false
  | _ :: rest => sendsImmediatelyAfterWait rest

/-- A byte buffer as a function from byte offset to byte value;
updating one cell, as in buffer[i] = v. -/
def bufSet (b : Nat → Nat) (i v : Nat) : Nat → Nat :=
  fun j => if j = i then v else b j

/-- memcpy of a byte list into a buffer at a given offset. -/
def bufWrite : (Nat → Nat) → Nat → List Nat → Nat → Nat
  | b, _, [] => b
  | b, off, v :: vs => bufWrite (bufSet b off v) (off + 1) vs

/-- The payload of the read-request buffer: for i = 0 .. words - 1 the
big-endian encoding of base + (i << 2), concatenated in input order
(the addresses array of init_board, lines 399 to 402). -/
def readAddressBytes (base : Nat) : Nat → List Nat
  | 0 => []
  | n + 1 => readAddressBytes base n ++ beBytes32 (base + 4 * n)

/-- Read-request buffer construction of init_board, litexcnc_eth.c
lines 392 to 405: memcpy the etherbone_header template at offset 0,
store the size_t word count (read_buffer_size - 16) >> 2 into the
uint8_t cell at offset 11 (hence reduction mod 256), and memcpy the
big-endian word addresses at offset 16.  mem0 is the content of the
freshly allocated buffer; template is the etherbone_header constant of
etherbone.h (not under the reviewed sources), kept abstract. -/
def buildReadRequestBuffer (mem0 : Nat → Nat) (template : List Nat)
    (rbs base : Nat) : Nat → Nat :=
  bufWrite
    (bufSet (bufWrite mem0 0 template) 11 (size_t_sub rbs 16 / 4 % 256))
    16 (readAddressBytes base (size_t_sub rbs 16 / 4))

/-- Write-buffer header construction of init_board, litexcnc_eth.c
lines 384 to 391: memcpy the etherbone_header template at offset 0,
store the size_t word count (write_buffer_size - 16) >> 2 into the
uint8_t cell at offset 10 (hence reduction mod 256), and memcpy the
big-endian base address at offset 12. -/
def buildWriteBufferHeader (mem0 : Nat → Nat) (template : List Nat)
    (wbs base : Nat) : Nat → Nat :=
  bufWrite
    (bufSet (bufWrite mem0 0 template) 10 (size_t_sub wbs 16 / 4 % 256))
    12 (beBytes32 base)

/-- Events of board bring-up observable in init_board, litexcnc_eth.c
lines 318 to 408 (modelled from the spec: eb_connect and eb_disconnect
belong to etherbone.c, not under the reviewed sources). -/
inductive BoardEvent where
  | ebConnect : Bool → BoardEvent
  | ebDisconnect : BoardEvent
  | cjsonDelete : BoardEvent
deriving DecidableEq

/-- init_board control flow, litexcnc_eth.c lines 318 to 408, with the
collaborator outcomes as oracle inputs: missing etherbone JSON object
or ip_address string fail before any connection (fail_without_disconnect,
only cJSON_Delete); a failed eb_connect goes through fail_disconnect
(eb_disconnect then cJSON_Delete); after a successful connect, a
nonzero litexcnc_register result is returned immediately with neither
eb_disconnect nor cJSON_Delete; on full success the config is deleted
and the buffers are built. -/
def init_board (ethIsObject ipIsString connectOk : Bool)
    (registerResult : Int) : Int × List BoardEvent :=
  if ethIsObject = false then (-1, [BoardEvent.cjsonDelete])
  else if ipIsString = false then (-1, [BoardEvent.cjsonDelete])
  else if connectOk = false then
    (-1, [BoardEvent.ebConnect false, BoardEvent.ebDisconnect,
          BoardEvent.cjsonDelete])
  else if registerResult ≠ 0 then
    (registerResult, [BoardEvent.ebConnect true])
  else
    (0, [BoardEvent.ebConnect true, BoardEvent.cjsonDelete])

/-
Helper lemmas (shared; none of these is a claim theorem).
-/

theorem size_t_sub_16 (a : Nat) (h16 : 16 ≤ a) (hbound : a < 2 ^ 64) :
    size_t_sub a 16 = a - 16 := by
  unfold size_t_sub
  omega

theorem bufWrite_lt (vs : List Nat) :
    ∀ (b : Nat → Nat) (off j : Nat), j < off → bufWrite b off vs j = b j := by
  induction vs with
  | nil => intro b off j _; rfl
  | cons v vs ih =>
      intro b off j hj
      show bufWrite (bufSet b off v) (off + 1) vs j = b j
      rw [ih _ _ _ (by omega)]
      unfold bufSet
      simp only [if_neg (by omega : ¬ j = off)]

theorem bufWrite_getD (vs : List Nat) :
    ∀ (b : Nat → Nat) (off i : Nat), i < vs.length →
      bufWrite b off vs (off + i) = vs.getD i 0 := by
  induction vs with
  | nil => intro b off i hi; simp at hi
  | cons v vs ih =>
      intro b off i hi
      match i with
      | 0 =>
          show bufWrite (bufSet b off v) (off + 1) vs (off + 0) = v
          rw [bufWrite_lt _ _ _ _ (by omega)]
          unfold bufSet
          simp
      | i + 1 =>
          show bufWrite (bufSet b off v) (off + 1) vs (off + (i + 1)) =
            (v :: vs).getD (i + 1) 0
          have harg : off + (i + 1) = (off + 1) + i := by omega
          rw [harg, ih _ _ _ (by simpa using hi)]
          simp [List.getD]

theorem readAddressBytes_length (base : Nat) :
    ∀ n, (readAddressBytes base n).length = 4 * n := by
  intro n
  induction n with
  | zero => rfl
  | succ m ih =>
      show (readAddressBytes base m ++ beBytes32 (base + 4 * m)).length = 4 * (m + 1)
      rw [List.length_append, ih]
      simp [beBytes32]
      omega

theorem getD_append_left (xs ys : List Nat) :
    ∀ i, i < xs.length → (xs ++ ys).getD i 0 = xs.getD i 0 := by
  induction xs with
  | nil => intro i hi; simp at hi
  | cons x xs ih =>
      intro i hi
      match i with
      | 0 => rfl
      | i + 1 =>
          show (xs ++ ys).getD i 0 = xs.getD i 0
          exact ih i (by simpa using hi)

theorem getD_append_full (xs ys : List Nat) :
    ∀ j, (xs ++ ys).getD (xs.length + j) 0 = ys.getD j 0 := by
  induction xs with
  | nil => intro j; simp
  | cons x xs ih =>
      intro j
      have h : (x :: xs).length + j = (xs.length + j) + 1 := by
        simp [List.length_cons]
        omega
      rw [h]
      show (xs ++ ys).getD (xs.length + j) 0 = ys.getD j 0
      exact ih j

theorem readAddressBytes_getD (base : Nat) :
    ∀ (n i j : Nat), i < n → j < 4 →
      (readAddressBytes base n).getD (4 * i + j) 0 =
        (beBytes32 (base + 4 * i)).getD j 0 := by
  intro n
  induction n with
  | zero => intro i j hi _; omega
  | succ m ih =>
      intro i j hi hj
      show (readAddressBytes base m ++ beBytes32 (base + 4 * m)).getD (4 * i + j) 0 = _
      rcases Nat.lt_or_ge i m with him | him
      · rw [getD_append_left _ _ _ (by rw [readAddressBytes_length]; omega)]
        exact ih i j him hj
      · have hieq : i = m := by omega
        subst hieq
        have hpos : 4 * i + j = (readAddressBytes base i).length + j := by
          rw [readAddressBytes_length]
        rw [hpos, getD_append_full]

theorem buildReadRequestBuffer_byte11 (mem0 : Nat → Nat) (template : List Nat)
    (rbs base : Nat) :
    buildReadRequestBuffer mem0 template rbs base 11 = size_t_sub rbs 16 / 4 % 256 := by
  unfold buildReadRequestBuffer
  rw [bufWrite_lt _ _ _ _ (by omega)]
  unfold bufSet
  simp

theorem buildReadRequestBuffer_payload (mem0 : Nat → Nat) (template : List Nat)
    (rbs base i j : Nat) (hi : i < size_t_sub rbs 16 / 4) (hj : j < 4) :
    buildReadRequestBuffer mem0 template rbs base (16 + (4 * i + j)) =
      (beBytes32 (base + 4 * i)).getD j 0 := by
  unfold buildReadRequestBuffer
  rw [bufWrite_getD _ _ _ _ (by rw [readAddressBytes_length]; omega)]
  exact readAddressBytes_getD base _ i j hi hj

theorem buildWriteBufferHeader_byte10 (mem0 : Nat → Nat) (template : List Nat)
    (wbs base : Nat) :
    buildWriteBufferHeader mem0 template wbs base 10 = size_t_sub wbs 16 / 4 % 256 := by
  unfold buildWriteBufferHeader
  rw [bufWrite_lt _ _ _ _ (by omega)]
  unfold bufSet
  simp

theorem buildWriteBufferHeader_addr (mem0 : Nat → Nat) (template : List Nat)
    (wbs base j : Nat) (hj : j < 4) :
    buildWriteBufferHeader mem0 template wbs base (12 + j) =
      (beBytes32 base).getD j 0 := by
  unfold buildWriteBufferHeader
  rw [bufWrite_getD _ _ _ _ (by simp [beBytes32]; omega)]

theorem resetLoop_done (dev : Nat → Nat) (flag : Nat) :
    ∀ (fuel idx : Nat), resetLoop dev flag fuel idx flag = (0, idx, flag) := by
  intro fuel idx
  cases fuel <;> simp [resetLoop]

theorem resetLoop_oracle (dev : Nat → Nat) (flag bad : Nat) (hne : flag ≠ bad) :
    ∀ (fuel idx0 k : Nat),
      (∀ n, n < fuel → n ≤ k → dev (idx0 + n) = if n < k then bad else flag) →
      resetLoop dev flag fuel idx0 bad =
        if k < fuel then (0, idx0 + (k + 1), flag) else (-1, idx0 + fuel, bad) := by
  intro fuel
  induction fuel with
  | zero =>
      intro idx0 k _
      simp [resetLoop, hne, Ne.symm hne]
  | succ f ih =>
      intro idx0 k hdev
      show (if flag = bad then _ else resetLoop dev flag f (idx0 + 1) (dev idx0)) = _
      rw [if_neg hne]
      match k with
      | 0 =>
          have h0 : dev idx0 = flag := by
            have := hdev 0 (by omega) (by omega)
            simpa using this
          rw [h0, resetLoop_done]
          simp [Nat.succ_pos]
      | k + 1 =>
          have h0 : dev idx0 = bad := by
            have := hdev 0 (by omega) (by omega)
            simpa using this
          rw [h0, ih (idx0 + 1) k ?hdev]
          case hdev =>
            intro n hn hk
            have := hdev (n + 1) (by omega) (by omega)
            have harg : idx0 + (n + 1) = idx0 + 1 + n := by omega
            rw [harg] at this
            rw [this]
            simp [Nat.succ_lt_succ_iff]
          rcases Nat.lt_or_ge k f with h | h
          · rw [if_pos h, if_pos (by omega)]
            have : idx0 + 1 + (k + 1) = idx0 + (k + 1 + 1) := by omega
            rw [this]
          · rw [if_neg (by omega), if_neg (by omega)]
            have : idx0 + 1 + f = idx0 + (f + 1) := by omega
            rw [this]

theorem resetLoop_code (dev : Nat → Nat) (flag : Nat) :
    ∀ (fuel idx status : Nat),
      (resetLoop dev flag fuel idx status).1 = 0 ∨
        (resetLoop dev flag fuel idx status).1 = -1 := by
  intro fuel
  induction fuel with
  | zero =>
      intro idx status
      by_cases h : flag = status <;> simp [resetLoop, h]
  | succ f ih =>
      intro idx status
      by_cases h : flag = status
      · simp [resetLoop, h]
      · simpa [resetLoop, h] using ih (idx + 1) (dev idx)

theorem reset_devSetAfter (k : Nat) :
    litexcnc_eth_reset (devSetAfter k) =
      if k < 5 then ⟨-1, k + 1, 5, [ResetErr.clearFailed]⟩
      else ⟨-1, 5, 0, [ResetErr.setFailed]⟩ := by
  have hset := resetLoop_oracle (devSetAfter k) 1 0 (by omega) 5 0 k ?hset
  case hset =>
    intro n _ _
    simp [devSetAfter]
  rcases Nat.lt_or_ge k 5 with h | h
  · rw [if_pos h]
    rw [if_pos h] at hset
    have hclear := resetLoop_oracle (devSetAfter k) 0 1 (by omega) 5 (0 + (k + 1)) 5 ?hclear
    case hclear =>
      intro n hn _
      rw [if_pos hn]
      simp [devSetAfter]
      omega
    rw [if_neg (by omega)] at hclear
    unfold litexcnc_eth_reset MAX_RESET_RETRIES
    rw [hset]
    simp only []
    rw [hclear]
    simp
  · rw [if_neg (by omega)]
    rw [if_neg (by omega)] at hset
    unfold litexcnc_eth_reset MAX_RESET_RETRIES
    rw [hset]
    simp

theorem reset_devClearAfter (k : Nat) :
    litexcnc_eth_reset (devClearAfter k) =
      if k < 5 then ⟨0, 1, k + 1, []⟩
      else ⟨-1, 1, 5, [ResetErr.clearFailed]⟩ := by
  have hset := resetLoop_oracle (devClearAfter k) 1 0 (by omega) 5 0 0 ?hset
  case hset =>
    intro n _ hn
    have hn0 : n = 0 := by omega
    subst hn0
    simp [devClearAfter]
  rw [if_pos (by omega)] at hset
  have hclear := resetLoop_oracle (devClearAfter k) 0 1 (by omega) 5 (0 + (0 + 1)) k ?hclear
  case hclear =>
    intro n _ _
    simp [devClearAfter]
  rcases Nat.lt_or_ge k 5 with h | h
  · rw [if_pos h]
    rw [if_pos h] at hclear
    unfold litexcnc_eth_reset MAX_RESET_RETRIES
    rw [hset]
    simp only []
    rw [hclear]
    simp
  · rw [if_neg (by omega)]
    rw [if_neg (by omega)] at hclear
    unfold litexcnc_eth_reset MAX_RESET_RETRIES
    rw [hset]
    simp only []
    rw [hclear]
    simp

/-
Claim theorems.
-/

/-- Claim C3: for all positive region sizes, the five base addresses
satisfy init_base = 0, reset_base = init_base + header_read_size,
config_base = reset_base + reset_header_size, write_base =
config_base + config_header_size and read_base = write_base +
write_buffer_size - write_header_size, and given write_buffer_size >
write_header_size the five bases are strictly increasing, so the
regions are contiguous and non-overlapping. -/
theorem C3_address_layout (s : RegionSizes)
    (h1 : 0 < s.header_data_read_size) (h2 : 0 < s.reset_header_size)
    (h3 : 0 < s.config_header_size) (h4 : 0 < s.write_buffer_size)
    (h5 : 0 < s.write_header_size)
    (h6 : s.write_header_size < s.write_buffer_size) :
    initBaseAddr s = 0 ∧
    resetBaseAddr s = initBaseAddr s + s.header_data_read_size ∧
    configBaseAddr s = resetBaseAddr s + s.reset_header_size ∧
    writeBaseAddr s = configBaseAddr s + s.config_header_size ∧
    readBaseAddr s = writeBaseAddr s + s.write_buffer_size - s.write_header_size ∧
    initBaseAddr s < resetBaseAddr s ∧
    resetBaseAddr s < configBaseAddr s ∧
    configBaseAddr s < writeBaseAddr s ∧
    writeBaseAddr s < readBaseAddr s := by
  refine ⟨rfl, rfl, rfl, rfl, rfl, ?_, ?_, ?_, ?_⟩ <;>
    simp only [initBaseAddr, resetBaseAddr, configBaseAddr, writeBaseAddr,
      readBaseAddr] <;>
    omega

/-- Witness for C3 at concrete region sizes 16, 4, 256, 128, 16. -/
theorem C3_address_layout_witness :
    initBaseAddr ⟨16, 4, 256, 128, 16⟩ = 0 ∧
    resetBaseAddr ⟨16, 4, 256, 128, 16⟩ = 16 ∧
    configBaseAddr ⟨16, 4, 256, 128, 16⟩ = 20 ∧
    writeBaseAddr ⟨16, 4, 256, 128, 16⟩ = 276 ∧
    readBaseAddr ⟨16, 4, 256, 128, 16⟩ = 388 ∧
    writeBaseAddr ⟨16, 4, 256, 128, 16⟩ < readBaseAddr ⟨16, 4, 256, 128, 16⟩ := by
  have h := C3_address_layout ⟨16, 4, 256, 128, 16⟩
    (by decide) (by decide) (by decide) (by decide) (by decide) (by decide)
  exact ⟨h.1, by decide, by decide, by decide, by decide, h.2.2.2.2.2.2.2.2⟩

/-- Claim C2: when the transport read succeeds, a byte sequence whose
first big-endian word differs from 0x18052022 makes
litexcnc_eth_verify_config return -1 with the stored version and
fingerprint unchanged, regardless of the remaining bytes; when the
first word equals 0x18052022 it returns 0 and stores exactly the
big-endian second word as version and third word as fingerprint; in
particular a device answering magic 0x18052022, version 2, fingerprint
0xABCD1234 succeeds with those values captured exactly. -/
theorem C2_verify_config (bytes : List Nat) (st : FpgaState) :
    (readWord32be bytes 0 ≠ 0x18052022 →
      litexcnc_eth_verify_config 0 bytes st = (-1, st)) ∧
    (readWord32be bytes 0 = 0x18052022 →
      litexcnc_eth_verify_config 0 bytes st =
        (0, ⟨readWord32be bytes 4, readWord32be bytes 8⟩)) ∧
    litexcnc_eth_verify_config 0
        (beBytes32 0x18052022 ++ beBytes32 2 ++ beBytes32 0xABCD1234) st =
      (0, ⟨2, 0xABCD1234⟩) := by
  refine ⟨?_, ?_, ?_⟩
  · intro h
    simp [litexcnc_eth_verify_config, h]
  · intro h
    simp [litexcnc_eth_verify_config, h]
  · have hmagic : readWord32be
        (beBytes32 0x18052022 ++ beBytes32 2 ++ beBytes32 0xABCD1234) 0 = 0x18052022 := by
      decide
    have hver : readWord32be
        (beBytes32 0x18052022 ++ beBytes32 2 ++ beBytes32 0xABCD1234) 4 = 2 := by
      decide
    have hfp : readWord32be
        (beBytes32 0x18052022 ++ beBytes32 2 ++ beBytes32 0xABCD1234) 8 = 0xABCD1234 := by
      decide
    unfold litexcnc_eth_verify_config
    rw [if_neg (by norm_num : ¬ (0 : Int) < 0),
      if_neg (fun h => h hmagic), hver, hfp]

/-- Witness for C2: a wrong magic (all-zero bytes) is rejected with the
state unchanged, and the concrete good device is accepted. -/
theorem C2_verify_config_witness :
    litexcnc_eth_verify_config 0 (List.replicate 12 0) ⟨0, 0⟩ = (-1, ⟨0, 0⟩) ∧
    litexcnc_eth_verify_config 0
        (beBytes32 0x18052022 ++ beBytes32 2 ++ beBytes32 0xABCD1234) ⟨0, 0⟩ =
      (0, ⟨2, 0xABCD1234⟩) := by
  obtain ⟨h1, _, h3⟩ := C2_verify_config (List.replicate 12 0) ⟨0, 0⟩
  exact ⟨h1 (by decide), h3⟩

/-- Claim C1: against a device whose reset-region read-back reports the
flag unset for the first k reads and set from read k + 1 onward, the
set phase of litexcnc_eth_reset succeeds and proceeds to the clear
phase iff k < MAX_RESET_RETRIES (5), returns -1 (ResetFailed) with the
set-phase error logged otherwise, and performs at most 5 read-back
attempts in that phase; the symmetric property holds for the clear
phase (device devClearAfter k) with flag 0x00000000 and its own fresh
budget of 5. -/
theorem C1_reset_retry_budget (k : Nat) :
    ((resetLoop (devSetAfter k) 1 MAX_RESET_RETRIES 0 0).1 = 0 ↔
      k < MAX_RESET_RETRIES) ∧
    (litexcnc_eth_reset (devSetAfter k)).setReads =
      min (k + 1) MAX_RESET_RETRIES ∧
    (litexcnc_eth_reset (devSetAfter k)).setReads ≤ MAX_RESET_RETRIES ∧
    (k < MAX_RESET_RETRIES →
      (litexcnc_eth_reset (devSetAfter k)).log = [ResetErr.clearFailed]) ∧
    (MAX_RESET_RETRIES ≤ k →
      (litexcnc_eth_reset (devSetAfter k)).code = -1 ∧
      (litexcnc_eth_reset (devSetAfter k)).log = [ResetErr.setFailed]) ∧
    ((litexcnc_eth_reset (devClearAfter k)).code = 0 ↔
      k < MAX_RESET_RETRIES) ∧
    (litexcnc_eth_reset (devClearAfter k)).clearReads =
      min (k + 1) MAX_RESET_RETRIES ∧
    (litexcnc_eth_reset (devClearAfter k)).clearReads ≤ MAX_RESET_RETRIES ∧
    (MAX_RESET_RETRIES ≤ k →
      (litexcnc_eth_reset (devClearAfter k)).code = -1 ∧
      (litexcnc_eth_reset (devClearAfter k)).log = [ResetErr.clearFailed]) := by
  have hset := resetLoop_oracle (devSetAfter k) 1 0 (by omega)
    MAX_RESET_RETRIES 0 k (by intro n _ _; simp [devSetAfter])
  have hS := reset_devSetAfter k
  have hC := reset_devClearAfter k
  simp only [MAX_RESET_RETRIES] at hset ⊢
  rcases Nat.lt_or_ge k 5 with h | h
  · rw [if_pos h] at hset hS hC
    rw [hset, hS, hC]
    refine ⟨by simp [h], by simp; omega, by simp; omega, fun _ => rfl,
      fun hk => absurd h (by omega), by simp [h], by simp; omega,
      by simp; omega, fun hk => absurd h (by omega)⟩
  · rw [if_neg (by omega)] at hset hS hC
    rw [hset, hS, hC]
    refine ⟨by simp; omega, by simp; omega, by simp, fun hk => absurd hk (by omega),
      fun _ => ⟨rfl, rfl⟩, by simp; omega, by simp; omega, by simp,
      fun _ => ⟨rfl, rfl⟩⟩

/-- Witness for C1 at k = 2 (set phase succeeds after three reads,
clear phase of the symmetric device succeeds) and k = 7 (both phases
exhaust their budget of 5). -/
theorem C1_reset_retry_budget_witness :
    (litexcnc_eth_reset (devSetAfter 2)).log = [ResetErr.clearFailed] ∧
    (litexcnc_eth_reset (devSetAfter 7)).code = -1 ∧
    (litexcnc_eth_reset (devSetAfter 7)).log = [ResetErr.setFailed] ∧
    (litexcnc_eth_reset (devClearAfter 2)).code = 0 ∧
    (litexcnc_eth_reset (devClearAfter 7)).log = [ResetErr.clearFailed] := by
  obtain ⟨_, _, _, d2, _, f2, _, _, _⟩ := C1_reset_retry_budget 2
  obtain ⟨_, _, _, _, e7, _, _, _, i7⟩ := C1_reset_retry_budget 7
  exact ⟨d2 (by decide), (e7 (by decide)).1, (e7 (by decide)).2,
    f2.mpr (by decide), (i7 (by decide)).2⟩

/-- Claim C9 counterexample: a device that never reports the flag set
exhausts the set phase, a device that always reports it set exhausts
the clear phase, and both runs return the same value -1, so the
returned value alone cannot tell the phases apart. -/
theorem C9_same_code_counterexample :
    (litexcnc_eth_reset (fun _ => 0)).log = [ResetErr.setFailed] ∧
    (litexcnc_eth_reset (fun _ => 1)).log = [ResetErr.clearFailed] ∧
    (litexcnc_eth_reset (fun _ => 0)).code =
      (litexcnc_eth_reset (fun _ => 1)).code := by
  refine ⟨rfl, rfl, rfl⟩

/-- Claim C9 (amended): exhausting either phase returns the same code
-1 (success returns 0); the set and clear phases are distinguished
only by which of the two distinct error messages is logged, not by the
returned value. -/
theorem C9_distinct_logs_only (dev : Nat → Nat) :
    ((litexcnc_eth_reset dev).code = 0 ∨ (litexcnc_eth_reset dev).code = -1) ∧
    ((litexcnc_eth_reset dev).code = -1 ↔
      (litexcnc_eth_reset dev).log = [ResetErr.setFailed] ∨
        (litexcnc_eth_reset dev).log = [ResetErr.clearFailed]) ∧
    ResetErr.setFailed ≠ ResetErr.clearFailed := by
  have hs := resetLoop_code dev 1 MAX_RESET_RETRIES 0 0
  have hc := resetLoop_code dev 0 MAX_RESET_RETRIES
    (resetLoop dev 1 MAX_RESET_RETRIES 0 0).2.1
    (resetLoop dev 1 MAX_RESET_RETRIES 0 0).2.2
  simp only [litexcnc_eth_reset]
  rcases hs with hs | hs
  · rw [if_neg (by rw [hs]; omega)]
    rcases hc with hc | hc
    · rw [if_neg (by rw [hc]; omega)]
      exact ⟨Or.inl hc, by simp [hc], by simp⟩
    · rw [if_pos (by rw [hc]; omega)]
      exact ⟨Or.inr hc, by simp [hc], by simp⟩
  · rw [if_pos (by rw [hs]; omega)]
    exact ⟨Or.inr hs, by simp [hs], by simp⟩

/-- Claim C4: for every expected length read_buffer_size > 0 and every
received byte count different from read_buffer_size, litexcnc_eth_read
returns -1 (IoError) for that cycle, with no internal retry (at most
one recv in the trace), and it returns 0 only when the received count
equals read_buffer_size exactly (and the send succeeded). -/
theorem C4_read_length_mismatch (req : List Nat) (s c : Int) (rbs : Nat)
    (hrbs : 0 < rbs) :
    (0 ≤ s → c ≠ (rbs : Int) → (litexcnc_eth_read req s c rbs).code = -1) ∧
    ((litexcnc_eth_read req s c rbs).code = 0 ↔ (0 ≤ s ∧ c = (rbs : Int))) ∧
    countRecvs (litexcnc_eth_read req s c rbs).trace ≤ 1 := by
  unfold litexcnc_eth_read
  by_cases hs : s < 0
  · rw [if_pos hs]
    refine ⟨fun h0 _ => absurd hs (by omega), ?_, ?_⟩
    · simp only []
      constructor
      · intro h
        exact absurd h (by norm_num)
      · intro ⟨h0, _⟩
        exact absurd hs (by omega)
    · simp [countRecvs]
  · rw [if_neg hs]
    by_cases hcr : c ≠ (rbs : Int)
    · rw [if_pos hcr]
      refine ⟨fun _ _ => rfl, ?_, by simp [countRecvs]⟩
      simp only []
      constructor
      · intro h
        exact absurd h (by norm_num)
      · intro ⟨_, hceq⟩
        exact absurd hceq hcr
    · rw [if_neg hcr]
      refine ⟨fun _ hne => absurd (by omega : c = (rbs : Int)) hne, ?_,
        by simp [countRecvs]⟩
      constructor
      · intro _
        exact ⟨by omega, by omega⟩
      · intro _
        rfl

/-- Witness for C4: expected length 3, received count 5, send result 0. -/
theorem C4_read_length_mismatch_witness :
    (litexcnc_eth_read [] 0 5 3).code = -1 ∧
    ((litexcnc_eth_read [] 0 5 3).code = 0 ↔ (0 ≤ (0 : Int) ∧ (5 : Int) = 3)) ∧
    countRecvs (litexcnc_eth_read [] 0 5 3).trace ≤ 1 := by
  obtain ⟨h1, h2, h3⟩ := C4_read_length_mismatch [] 0 5 3 (by decide)
  exact ⟨h1 (by decide) (by decide), h2, h3⟩

/-- Claim C5: in every invocation of litexcnc_eth_read and
litexcnc_eth_write the wait-until-tx-buffer-empty step immediately
precedes the single send of the cycle, so no send is issued while
previously queued outbound data may still be draining. -/
theorem C5_wait_before_send (req : List Nat) (s c : Int) (rbs wbs : Nat) :
    sendsImmediatelyAfterWait (litexcnc_eth_read req s c rbs).trace = true ∧
    countSends (litexcnc_eth_read req s c rbs).trace = 1 ∧
    sendsImmediatelyAfterWait (litexcnc_eth_write s wbs).2 = true ∧
    countSends (litexcnc_eth_write s wbs).2 = 1 := by
  unfold litexcnc_eth_read litexcnc_eth_write
  refine ⟨?_, ?_, ?_, ?_⟩ <;>
    (split <;> try split) <;>
    simp [sendsImmediatelyAfterWait, countSends]

/-- Claim C8 counterexample: with a config region of 4 bytes and a
payload of 8 bytes, litexcnc_eth_write_config sends only the first 4
bytes, not the full payload of the given size. -/
theorem C8_partial_send_counterexample :
    (litexcnc_eth_write_config 4 320 [1, 2, 3, 4, 5, 6, 7, 8] 8).2 =
      [EbEvent.write8 320 [1, 2, 3, 4]] ∧
    (litexcnc_eth_write_config 4 320 [1, 2, 3, 4, 5, 6, 7, 8] 8).2 ≠
      [EbEvent.write8 320 [1, 2, 3, 4, 5, 6, 7, 8]] := by
  refine ⟨rfl, by decide⟩

/-- Claim C8 (amended): litexcnc_eth_write_config performs exactly one
write of the first LITEXCNC_CONFIG_HEADER_SIZE bytes of the payload to
the config base address, ignoring the size argument entirely, performs
no read-back, and returns 0 unconditionally; the full payload is sent
precisely when its length is at most LITEXCNC_CONFIG_HEADER_SIZE. -/
theorem C8_write_config_one_shot (chs base : Nat) (data : List Nat)
    (s1 s2 : Nat) :
    (litexcnc_eth_write_config chs base data s1).1 = 0 ∧
    (litexcnc_eth_write_config chs base data s1).2 =
      [EbEvent.write8 base (data.take chs)] ∧
    litexcnc_eth_write_config chs base data s1 =
      litexcnc_eth_write_config chs base data s2 ∧
    (∀ a l, EbEvent.read8 a l ∉ (litexcnc_eth_write_config chs base data s1).2) ∧
    (data.length ≤ chs → (litexcnc_eth_write_config chs base data s1).2 =
      [EbEvent.write8 base data]) := by
  refine ⟨rfl, rfl, rfl, ?_, ?_⟩
  · intro a l
    simp [litexcnc_eth_write_config]
  · intro h
    simp [litexcnc_eth_write_config, List.take_of_length_le h]

/-- Witness for C8 (the last conjunct has a hypothesis): concrete
payload of 2 bytes with config region size 4. -/
theorem C8_write_config_one_shot_witness :
    (litexcnc_eth_write_config 4 320 [7, 9] 2).1 = 0 ∧
    (litexcnc_eth_write_config 4 320 [7, 9] 2).2 =
      [EbEvent.write8 320 [7, 9]] := by
  obtain ⟨h1, _, _, _, h5⟩ := C8_write_config_one_shot 4 320 [7, 9] 2 2
  exact ⟨h1, h5 (by decide)⟩

/-- Claim C10: the claim says every failing return path of init_board
releases an already-established connection before returning; the code
path where litexcnc_register fails after a successful eb_connect
returns the error without any eb_disconnect (litexcnc_eth.c lines 374
to 378 return directly, bypassing the fail_disconnect label of line
353), so the established connection is leaked by init_board. -/
theorem C10_register_fail_leaks_connection :
    (init_board true true true 1).1 = 1 ∧
    BoardEvent.ebConnect true ∈ (init_board true true true 1).2 ∧
    BoardEvent.ebDisconnect ∉ (init_board true true true 1).2 ∧
    BoardEvent.cjsonDelete ∉ (init_board true true true 1).2 := by
  refine ⟨rfl, by decide, by decide, by decide⟩

/-- Claim C6 counterexample: for read_buffer_size 1040 the word count N
is (1040 - 16) / 4 = 256, but the uint8_t cell at header byte 11
receives 256 mod 256 = 0, so byte 11 does not equal N as claimed. -/
theorem C6_byte11_truncation_counterexample :
    buildReadRequestBuffer (fun _ => 0) (List.replicate 16 0) 1040 256 11 = 0 ∧
    (1040 - 16) / 4 = 256 ∧ (0 : Nat) ≠ 256 := by
  refine ⟨?_, by norm_num, by norm_num⟩
  rw [buildReadRequestBuffer_byte11]
  decide

/-- Claim C6 (amended): header byte 11 of the read-request buffer holds
the LOW BYTE of the word count N = (read_buffer_size - 16) / 4 (the C
code assigns the size_t count to a uint8_t cell, truncating mod 256);
for every i < N the four payload bytes at offset 16 + 4 * i are the
big-endian encoding of read_base + 4 * i, the addresses in increasing
input order, one per requested 32-bit word; and the cyclic read leaves
the buffer unchanged. -/
theorem C6_read_request_buffer (mem0 : Nat → Nat) (template : List Nat)
    (rbs base i j : Nat) (hrbs : 16 ≤ rbs) (hbound : rbs < 2 ^ 64)
    (hi : i < (rbs - 16) / 4) (hj : j < 4) :
    buildReadRequestBuffer mem0 template rbs base 11 = (rbs - 16) / 4 % 256 ∧
    buildReadRequestBuffer mem0 template rbs base (16 + (4 * i + j)) =
      (beBytes32 (base + 4 * i)).getD j 0 ∧
    (∀ req s c n, (litexcnc_eth_read req s c n).reqBufAfter = req) := by
  have hsub := size_t_sub_16 rbs hrbs hbound
  refine ⟨?_, ?_, ?_⟩
  · rw [buildReadRequestBuffer_byte11, hsub]
  · rw [buildReadRequestBuffer_payload mem0 template rbs base i j
      (by rw [hsub]; exact hi) hj]
  · intro req s c n
    unfold litexcnc_eth_read
    split <;> try split
    all_goals rfl

/-- Witness for C6 (amended) at read_buffer_size 28 (three words),
base 256, payload word i = 1, byte j = 2. -/
theorem C6_read_request_buffer_witness :
    buildReadRequestBuffer (fun _ => 0) (List.replicate 16 0) 28 256 11 =
      (28 - 16) / 4 % 256 ∧
    buildReadRequestBuffer (fun _ => 0) (List.replicate 16 0) 28 256
        (16 + (4 * 1 + 2)) = (beBytes32 (256 + 4 * 1)).getD 2 0 := by
  obtain ⟨h1, h2, _⟩ := C6_read_request_buffer (fun _ => 0)
    (List.replicate 16 0) 28 256 1 2 (by norm_num) (by norm_num)
    (by norm_num) (by norm_num)
  exact ⟨h1, h2⟩

/-- Claim C7 counterexample: for write_buffer_size 1040 the payload
word count (1040 - 16) / 4 is 256, but the uint8_t cell at header byte
10 receives 256 mod 256 = 0, so byte 10 does not equal the payload
word count as claimed. -/
theorem C7_byte10_truncation_counterexample :
    buildWriteBufferHeader (fun _ => 0) (List.replicate 16 0) 1040 256 10 = 0 ∧
    (1040 - 16) / 4 = 256 ∧ (0 : Nat) ≠ 256 := by
  refine ⟨?_, by norm_num, by norm_num⟩
  rw [buildWriteBufferHeader_byte10]
  decide

/-- Claim C7 (amended): header byte 10 of the write buffer holds the
LOW BYTE of the payload word count (write_buffer_size - 16) / 4 (the C
code assigns the size_t count to a uint8_t cell, truncating mod 256)
and header bytes 12 to 15 hold the big-endian write-region base
address; in particular, for base address 0x00000100 and 3 payload
words (write_buffer_size 28) bytes 12 to 15 are 00 00 01 00 and byte
10 is 3. -/
theorem C7_write_buffer_header (mem0 : Nat → Nat) (template : List Nat)
    (wbs base j : Nat) (hwbs : 16 ≤ wbs) (hbound : wbs < 2 ^ 64)
    (hj : j < 4) :
    buildWriteBufferHeader mem0 template wbs base 10 = (wbs - 16) / 4 % 256 ∧
    buildWriteBufferHeader mem0 template wbs base (12 + j) =
      (beBytes32 base).getD j 0 ∧
    buildWriteBufferHeader mem0 template 28 256 10 = 3 ∧
    buildWriteBufferHeader mem0 template 28 256 12 = 0 ∧
    buildWriteBufferHeader mem0 template 28 256 13 = 0 ∧
    buildWriteBufferHeader mem0 template 28 256 14 = 1 ∧
    buildWriteBufferHeader mem0 template 28 256 15 = 0 := by
  have hsub := size_t_sub_16 wbs hwbs hbound
  refine ⟨?_, ?_, ?_, ?_, ?_, ?_, ?_⟩
  · rw [buildWriteBufferHeader_byte10, hsub]
  · exact buildWriteBufferHeader_addr mem0 template wbs base j hj
  · rw [buildWriteBufferHeader_byte10]
    decide
  · rw [show (12 : Nat) = 12 + 0 from rfl,
      buildWriteBufferHeader_addr mem0 template 28 256 0 (by norm_num)]
    decide
  · rw [show (13 : Nat) = 12 + 1 from rfl,
      buildWriteBufferHeader_addr mem0 template 28 256 1 (by norm_num)]
    decide
  · rw [show (14 : Nat) = 12 + 2 from rfl,
      buildWriteBufferHeader_addr mem0 template 28 256 2 (by norm_num)]
    decide
  · rw [show (15 : Nat) = 12 + 3 from rfl,
      buildWriteBufferHeader_addr mem0 template 28 256 3 (by norm_num)]
    decide

/-- Witness for C7 (amended) at write_buffer_size 28, base 256,
address byte j = 2. -/
theorem C7_write_buffer_header_witness :
    buildWriteBufferHeader (fun _ => 0) (List.replicate 16 0) 28 256 10 =
      (28 - 16) / 4 % 256 ∧
    buildWriteBufferHeader (fun _ => 0) (List.replicate 16 0) 28 256
        (12 + 2) = (beBytes32 256).getD 2 0 ∧
    buildWriteBufferHeader (fun _ => 0) (List.replicate 16 0) 28 256 14 = 1 := by
  obtain ⟨h1, h2, _, _, _, h6, _⟩ := C7_write_buffer_header (fun _ => 0)
    (List.replicate 16 0) 28 256 2 (by norm_num) (by norm_num) (by norm_num)
  exact ⟨h1, h2, h6⟩

/-- Witness for C9 (amended) at the concrete device that never reports
the flag set. -/
theorem C9_distinct_logs_only_witness :
    ((litexcnc_eth_reset (fun _ => 0)).code = 0 ∨
      (litexcnc_eth_reset (fun _ => 0)).code = -1) ∧
    ((litexcnc_eth_reset (fun _ => 0)).code = -1 ↔
      (litexcnc_eth_reset (fun _ => 0)).log = [ResetErr.setFailed] ∨
        (litexcnc_eth_reset (fun _ => 0)).log = [ResetErr.clearFailed]) ∧
    ResetErr.setFailed ≠ ResetErr.clearFailed :=
  C9_distinct_logs_only (fun _ => 0)
